import Mathlib

/-!
# ks-clock-face: a verification development

Shallow embedding of `src/ks-clock-face.c` (an analog watch face) together with
theorems about its time sampler, its animation callbacks and its renderer.

Conventions of the embedding.

* Every C integer is an `Int`.  A store into a `uint8_t` object goes through
  `wrapU8`, a store into an `int16_t` object through `wrapI16`, and the result
  of `int` arithmetic through `wrapI32`, so that wrap-around is explicit.
* Signed division is C99 division (truncation towards zero), `Int.tdiv`.
* The file-scope variables of the program are the fields of `State`.  What the
  program hands to the host (animations it schedules, redraw requests) is
  recorded in the same structure.
* Constants and functions that come from the SDK header `pebble.h` are the
  fields of `Sdk`; every function that uses one takes the `Sdk` as a parameter.
-/

namespace KsClockFace

/-! ## Machine integers -/

/-- Conversion of an integer to `uint8_t`. -/
def wrapU8 (x : Int) : Int := x % 256

/-- Conversion of an integer to `int16_t` (two's complement). -/
def wrapI16 (x : Int) : Int := (x + 32768) % 65536 - 32768

/-- Result of an `int` / `int32_t` operation (two's complement wrap-around). -/
def wrapI32 (x : Int) : Int := (x + 2147483648) % 4294967296 - 2147483648

/-- C multiplication on `int`. -/
def mulI32 (a b : Int) : Int := wrapI32 (a * b)

/-- C subtraction on `int`. -/
def subI32 (a b : Int) : Int := wrapI32 (a - b)

/-- C addition on `int`. -/
def addI32 (a b : Int) : Int := wrapI32 (a + b)

/-- C division on `int`: the quotient is truncated towards zero. -/
def divI32 (a b : Int) : Int := wrapI32 (Int.tdiv a b)

/-- C remainder on `int`: it has the sign of the dividend. -/
def modI32 (a b : Int) : Int := wrapI32 (Int.tmod a b)

/-! ## Constants of the source file -/

/-- Source: `#define HAND_MARGIN 10`. -/
def HAND_MARGIN : Int := 10

/-- Source: `#define ANIMATION_DURATION 500`. -/
def ANIMATION_DURATION : Int := 500

/-- Source: `#define ANIMATION_DELAY 600`. -/
def ANIMATION_DELAY : Int := 600

/-- Source: `#define ANTIALIASING true`. -/
def ANTIALIASING : Bool := true

/-! ## Data model -/

/-- Source: `typedef struct { uint8_t hours; uint8_t minutes; } Time;`. -/
structure Time where
  hours : Int
  minutes : Int
deriving DecidableEq, Repr

/-- The SDK type `GPoint`: two `int16_t` coordinates. -/
structure GPoint where
  x : Int
  y : Int
deriving DecidableEq, Repr

/-- The SDK type `GSize`. -/
structure GSize where
  w : Int
  h : Int
deriving DecidableEq, Repr

/-- The SDK type `GRect`. -/
structure GRect where
  origin : GPoint
  size : GSize
deriving DecidableEq, Repr

/-! ## The SDK header -/

/-- Constants and lookup functions declared in `pebble.h`, which is not part of
the repository.  `COLORS` is the value of `PBL_IF_COLOR_ELSE(true, false)`. -/
structure Sdk where
  TRIG_MAX_ANGLE : Int
  TRIG_MAX_RATIO : Int
  ANIMATION_NORMALIZED_MAX : Int
  sin_lookup : Int → Int
  cos_lookup : Int → Int
  grect_center_point : GRect → GPoint
  COLORS : Bool

/-- The two fields of `struct tm` that the program reads. -/
structure Tm where
  tm_hour : Int
  tm_min : Int
deriving DecidableEq, Repr

/-- The `update` function an `AnimationImplementation` points to. -/
inductive UpdateFn where
  | radius_update
  | hands_update
deriving DecidableEq, Repr

/-- What `prv_animate` configures on the animation it creates.  `handlers`
records whether `prv_animation_started` / `prv_animation_stopped` were
attached. -/
structure Animation where
  duration : Int
  delay : Int
  easeInOut : Bool
  update : UpdateFn
  handlers : Bool
deriving DecidableEq, Repr

/-- The file-scope variables of the program, followed by what the program has
handed to the host: the animations passed to `animation_schedule`, in order,
and the number of `layer_mark_dirty` calls.  `s_canvas_layer` is `none` for the
null pointer and otherwise holds the frame the layer was created with. -/
structure State where
  s_canvas_layer : Option GRect
  s_center : GPoint
  s_last_time : Time
  s_anim_time : Time
  s_radius : Int
  s_anim_hours_60 : Int
  s_color_channels_0 : Int
  s_color_channels_1 : Int
  s_color_channels_2 : Int
  s_radius_final : Int
  s_animating : Bool
  scheduled : List Animation
  dirty : Nat
deriving DecidableEq, Repr

/-- Values of the file-scope variables at program start: the two explicit
initialisers (`s_radius = 0`, `s_anim_hours_60 = 0`, `s_animating = false`) and
zero for every other static object. -/
def initialState : State :=
  { s_canvas_layer := none
    s_center := ⟨0, 0⟩
    s_last_time := ⟨0, 0⟩
    s_anim_time := ⟨0, 0⟩
    s_radius := 0
    s_anim_hours_60 := 0
    s_color_channels_0 := 0
    s_color_channels_1 := 0
    s_color_channels_2 := 0
    s_radius_final := 0
    s_animating := false
    scheduled := []
    dirty := 0 }

/-- The host call `layer_mark_dirty`. -/
def layer_mark_dirty (s : State) : State := { s with dirty := s.dirty + 1 }

/-! ## Animation callbacks -/

/-- Source: `prv_animation_started` (the animation handle is ignored). -/
def prv_animation_started (_anim : Nat) (s : State) : State :=
  { s with s_animating := true }

/-- Source: `prv_animation_stopped` (handle and `stopped` flag are ignored). -/
def prv_animation_stopped (_anim : Nat) (_stopped : Bool) (s : State) : State :=
  { s with s_animating := false }

/-- Source: `prv_animate`.  The created animation is configured and passed to
`animation_schedule`. -/
def prv_animate (duration delay : Int) (implementation : UpdateFn) (handlers : Bool)
    (s : State) : State :=
  { s with scheduled := s.scheduled ++
      [{ duration := duration, delay := delay, easeInOut := true,
         update := implementation, handlers := handlers }] }

/-! ## Time sampler -/

/-- Source: `prv_tick_handler`.  `r0 r1 r2` are the three values returned by
the successive `rand()` calls. -/
def prv_tick_handler (tick_time : Tm) (r0 r1 r2 : Int) (s : State) : State :=
  let hours0 := wrapU8 tick_time.tm_hour
  let hours := wrapU8 (subI32 hours0 (if hours0 > 12 then 12 else 0))
  let minutes := wrapU8 tick_time.tm_min
  let s1 : State :=
    { s with
      s_last_time := ⟨hours, minutes⟩
      s_color_channels_0 := wrapU8 (modI32 r0 256)
      s_color_channels_1 := wrapU8 (modI32 r1 256)
      s_color_channels_2 := wrapU8 (modI32 r2 256) }
  if s1.s_canvas_layer.isSome then layer_mark_dirty s1 else s1

/-- Source: `prv_hours_to_minutes`. -/
def prv_hours_to_minutes (hours_out_of_12 : Int) : Int :=
  divI32 (mulI32 hours_out_of_12 60) 12

/-! ## Animation progress -/

/-- Source: `prv_anim_percentage`.  `dist_normalized` is an `int32_t`. -/
def prv_anim_percentage (sdk : Sdk) (dist_normalized max : Int) : Int :=
  divI32 (mulI32 dist_normalized max) sdk.ANIMATION_NORMALIZED_MAX

/-- Source: `prv_radius_update`. -/
def prv_radius_update (sdk : Sdk) (_anim : Nat) (dist_normalized : Int) (s : State) : State :=
  layer_mark_dirty
    { s with s_radius := wrapU8 (prv_anim_percentage sdk dist_normalized s.s_radius_final) }

/-- Source: `prv_hands_update`. -/
def prv_hands_update (sdk : Sdk) (_anim : Nat) (dist_normalized : Int) (s : State) : State :=
  layer_mark_dirty
    { s with
      s_anim_time :=
        ⟨wrapU8 (prv_anim_percentage sdk dist_normalized
            (prv_hours_to_minutes s.s_last_time.hours)),
         wrapU8 (prv_anim_percentage sdk dist_normalized s.s_last_time.minutes)⟩ }

/-- Source: `prv_start_animation`. -/
def prv_start_animation (s : State) : State :=
  let s1 := prv_animate ANIMATION_DURATION ANIMATION_DELAY UpdateFn.radius_update false s
  prv_animate (mulI32 2 ANIMATION_DURATION) ANIMATION_DELAY UpdateFn.hands_update true s1

/-- Source: `prv_create_canvas`.  `bounds` is what
`layer_get_unobstructed_bounds(window_layer)` returns. -/
def prv_create_canvas (bounds : GRect) (s : State) : State :=
  { s with
    s_radius_final := wrapU8 (divI32 (subI32 bounds.size.w 30) 2)
    s_canvas_layer := some bounds }

/-! ## Unobstructed-area handlers -/

/-- Source: `prv_unobstructed_will_change`. -/
def prv_unobstructed_will_change (s : State) : State :=
  if s.s_animating then s
  else { s with s_radius := 0, s_anim_hours_60 := 0 }

/-- Source: `prv_unobstructed_did_change`. -/
def prv_unobstructed_did_change (s : State) : State :=
  if s.s_animating then s
  else prv_start_animation s

/-! ## C `float`

The renderer computes the hour angle in `float`.  A finite `float` value is
modelled by the rational number it denotes, and every operation is the exact
operation followed by rounding to IEEE-754 binary32: 24 significant bits, round
to nearest, ties to even, gradual underflow below `2 ^ (-126)`.  Overflow to
infinity is not modelled; every value the renderer forms is far below
`2 ^ 128`. -/

/-- Spacing of the binary32 values around the rational `q`. -/
def ulpBinary32 (q : ℚ) : ℚ := (2 : ℚ) ^ (max (Int.log 2 |q|) (-126) - 23)

/-- Integer nearest to `q`, the even one of the two when `q` lies half way. -/
def roundHalfEven (q : ℚ) : Int :=
  let f := ⌊q⌋
  let r := q - f
  if r < 1 / 2 then f
  else if 1 / 2 < r then f + 1
  else if f % 2 = 0 then f else f + 1

/-- The binary32 value nearest to `q` (ties to even). -/
def roundBinary32 (q : ℚ) : ℚ :=
  if q = 0 then 0 else roundHalfEven (q / ulpBinary32 q) * ulpBinary32 q

/-- Conversion `int` to `float`. -/
def f32OfInt (i : Int) : ℚ := roundBinary32 i

/-- Operator `+` on `float`. -/
def f32Add (a b : ℚ) : ℚ := roundBinary32 (a + b)

/-- Operator `*` on `float`. -/
def f32Mul (a b : ℚ) : ℚ := roundBinary32 (a * b)

/-- Operator `/` on `float`. -/
def f32Div (a b : ℚ) : ℚ := roundBinary32 (a / b)

/-- Conversion `float` to `int32_t`: the fractional part is discarded. -/
def f32ToI32 (q : ℚ) : Int := wrapI32 (if 0 ≤ q then ⌊q⌋ else ⌈q⌉)

/-! ## Renderer -/

/-- Colours the renderer selects. -/
inductive GColor where
  | fromRGB (r g b : Int)
  | darkGray
  | white
  | black
deriving DecidableEq, Repr

/-- Calls the renderer makes on the graphics context, in the order made. -/
inductive DrawCmd where
  | set_fill_color (c : GColor)
  | fill_rect (rect : GRect) (corner_radius : Int)
  | set_stroke_color (c : GColor)
  | set_stroke_width (w : Int)
  | set_antialiased (enable : Bool)
  | fill_circle (p : GPoint) (radius : Int)
  | draw_circle (p : GPoint) (radius : Int)
  | draw_line (p0 p1 : GPoint)
deriving DecidableEq, Repr

/-- Source, `prv_update_proc`: `Time mode_time = (s_animating) ? s_anim_time : s_last_time;`. -/
def mode_time (s : State) : Time :=
  if s.s_animating then s.s_anim_time else s.s_last_time

/-- Source, `prv_update_proc`: the integer expression
`TRIG_MAX_ANGLE * mode_time.minutes / 60`, which initialises `minute_angle` and
is the argument of the minute hand's lookups. -/
def minute_angle_int (sdk : Sdk) (t : Time) : Int :=
  divI32 (mulI32 sdk.TRIG_MAX_ANGLE t.minutes) 60

/-- Source, `prv_update_proc`: `float minute_angle = TRIG_MAX_ANGLE * mode_time.minutes / 60;`. -/
def minute_angle (sdk : Sdk) (t : Time) : ℚ :=
  f32OfInt (minute_angle_int sdk t)

/-- Source, `prv_update_proc`: the integer the `if (s_animating)` statement
assigns to `hour_angle`. -/
def hour_angle_base (sdk : Sdk) (animating : Bool) (t : Time) : Int :=
  if animating then divI32 (mulI32 sdk.TRIG_MAX_ANGLE t.hours) 60
  else divI32 (mulI32 sdk.TRIG_MAX_ANGLE t.hours) 12

/-- Source, `prv_update_proc`: the value of `hour_angle` after
`hour_angle += (minute_angle / TRIG_MAX_ANGLE) * (TRIG_MAX_ANGLE / 12);`. -/
def hour_angle (sdk : Sdk) (animating : Bool) (t : Time) : ℚ :=
  f32Add (f32OfInt (hour_angle_base sdk animating t))
    (f32Mul (f32Div (minute_angle sdk t) (f32OfInt sdk.TRIG_MAX_ANGLE))
      (f32OfInt (divI32 sdk.TRIG_MAX_ANGLE 12)))

/-- Source, `prv_update_proc`: the length factor of the minute hand,
`(int32_t)(s_radius - HAND_MARGIN)`. -/
def minute_hand_length (s : State) : Int := subI32 s.s_radius HAND_MARGIN

/-- Source, `prv_update_proc`: the length factor of the hour hand,
`(int32_t)(s_radius - (2 * HAND_MARGIN))`. -/
def hour_hand_length (s : State) : Int := subI32 s.s_radius (mulI32 2 HAND_MARGIN)

/-- Source, `prv_update_proc`: the point `minute_hand`. -/
def minute_hand (sdk : Sdk) (center : GPoint) (s : State) : GPoint :=
  let a := minute_angle_int sdk (mode_time s)
  ⟨wrapI16 (addI32
      (wrapI16 (divI32 (mulI32 (sdk.sin_lookup a) (minute_hand_length s)) sdk.TRIG_MAX_RATIO))
      center.x),
   wrapI16 (addI32
      (wrapI16 (divI32 (mulI32 (wrapI32 (-(sdk.cos_lookup a))) (minute_hand_length s))
        sdk.TRIG_MAX_RATIO))
      center.y)⟩

/-- Source, `prv_update_proc`: the point `hour_hand`. -/
def hour_hand (sdk : Sdk) (center : GPoint) (s : State) : GPoint :=
  let a := f32ToI32 (hour_angle sdk s.s_animating (mode_time s))
  ⟨wrapI16 (addI32
      (wrapI16 (divI32 (mulI32 (sdk.sin_lookup a) (hour_hand_length s)) sdk.TRIG_MAX_RATIO))
      center.x),
   wrapI16 (addI32
      (wrapI16 (divI32 (mulI32 (wrapI32 (-(sdk.cos_lookup a))) (hour_hand_length s))
        sdk.TRIG_MAX_RATIO))
      center.y)⟩

/-- Source, `prv_update_proc`: the calls made before the hands are plotted. -/
def draw_face (sdk : Sdk) (full_bounds : GRect) (center : GPoint) (s : State) : List DrawCmd :=
  [ DrawCmd.set_fill_color
      (if sdk.COLORS then
        GColor.fromRGB s.s_color_channels_0 s.s_color_channels_1 s.s_color_channels_2
       else GColor.darkGray),
    DrawCmd.fill_rect full_bounds 0,
    DrawCmd.set_stroke_color GColor.black,
    DrawCmd.set_stroke_width 4,
    DrawCmd.set_antialiased ANTIALIASING,
    DrawCmd.set_fill_color GColor.white,
    DrawCmd.fill_circle center s.s_radius,
    DrawCmd.draw_circle center s.s_radius ]

/-- Source, `prv_update_proc`: the statement
`if (s_radius > 2 * HAND_MARGIN) graphics_draw_line(ctx, s_center, hour_hand);`. -/
def draw_hour_hand (sdk : Sdk) (center : GPoint) (s : State) : List DrawCmd :=
  if s.s_radius > mulI32 2 HAND_MARGIN then [DrawCmd.draw_line center (hour_hand sdk center s)]
  else []

/-- Source, `prv_update_proc`: the statement
`if (s_radius > HAND_MARGIN) graphics_draw_line(ctx, s_center, minute_hand);`. -/
def draw_minute_hand (sdk : Sdk) (center : GPoint) (s : State) : List DrawCmd :=
  if s.s_radius > HAND_MARGIN then [DrawCmd.draw_line center (minute_hand sdk center s)]
  else []

/-- Source: `prv_update_proc`.  `full_bounds` is what `layer_get_bounds(layer)`
returns and `bounds` what `layer_get_unobstructed_bounds(layer)` returns.  The
result is the state after the call (`s_center` is assigned) and the calls made
on the graphics context. -/
def prv_update_proc (sdk : Sdk) (full_bounds bounds : GRect) (s : State) :
    State × List DrawCmd :=
  let center := sdk.grect_center_point bounds
  let s1 : State := { s with s_center := center }
  (s1, draw_face sdk full_bounds center s1 ++ draw_hour_hand sdk center s1 ++
        draw_minute_hand sdk center s1)

/-! ## Window and events -/

/-- Source: `prv_window_load` (the two `subscribe` calls register
`prv_tick_handler` and the unobstructed-area handlers with the host). -/
def prv_window_load (bounds : GRect) (s : State) : State :=
  prv_start_animation (prv_create_canvas bounds s)

/-- Callbacks the host event loop can invoke on the program. -/
inductive Event where
  | animation_started (anim : Nat)
  | animation_stopped (anim : Nat) (stopped : Bool)
  | tick (tick_time : Tm) (r0 r1 r2 : Int)
  | radius_update (anim : Nat) (dist_normalized : Int)
  | hands_update (anim : Nat) (dist_normalized : Int)
  | unobstructed_will_change
  | unobstructed_did_change
  | update_proc (full_bounds bounds : GRect)
  | window_load (bounds : GRect)
deriving DecidableEq, Repr

/-- State after the host invokes one callback. -/
def step (sdk : Sdk) (e : Event) (s : State) : State :=
  match e with
  | Event.animation_started anim => prv_animation_started anim s
  | Event.animation_stopped anim stopped => prv_animation_stopped anim stopped s
  | Event.tick tick_time r0 r1 r2 => prv_tick_handler tick_time r0 r1 r2 s
  | Event.radius_update anim d => prv_radius_update sdk anim d s
  | Event.hands_update anim d => prv_hands_update sdk anim d s
  | Event.unobstructed_will_change => prv_unobstructed_will_change s
  | Event.unobstructed_did_change => prv_unobstructed_did_change s
  | Event.update_proc full_bounds bounds => (prv_update_proc sdk full_bounds bounds s).1
  | Event.window_load bounds => prv_window_load bounds s

/-- State after the host invokes a sequence of callbacks, first to last. -/
def run (sdk : Sdk) (es : List Event) (s : State) : State :=
  es.foldl (fun st e => step sdk e st) s

/-- Whether the event is the start callback of a hands animation. -/
def Event.isStart : Event → Bool
  | Event.animation_started _ => true
  | _ => false

/-- Whether the event is the stop callback of a hands animation. -/
def Event.isStop : Event → Bool
  | Event.animation_stopped _ _ => true
  | _ => false

/-- Specification-side reading of "between the start callback of animation
`anim` and its stop callback": after the events `es`, the start callback of
`anim` has been delivered and its stop callback has not been delivered since. -/
def betweenStartAndStop (anim : Nat) (es : List Event) : Bool :=
  es.foldl
    (fun b e =>
      match e with
      | Event.animation_started a => if a = anim then true else b
      | Event.animation_stopped a _ => if a = anim then false else b
      | _ => b)
    false

/-- An SDK instance with the values of the watch firmware's header for the
three constants and constant lookup tables; used to instantiate theorems on
concrete inputs. -/
def sampleSdk : Sdk :=
  { TRIG_MAX_ANGLE := 65536
    TRIG_MAX_RATIO := 65535
    ANIMATION_NORMALIZED_MAX := 65535
    sin_lookup := fun _ => 0
    cos_lookup := fun _ => 65535
    grect_center_point := fun r =>
      ⟨r.origin.x + r.size.w / 2, r.origin.y + r.size.h / 2⟩
    COLORS := true }

/-! ## Machine-integer lemmas -/

theorem wrapU8_of_range {x : Int} (h0 : 0 ≤ x) (h1 : x ≤ 255) : wrapU8 x = x := by
  unfold wrapU8; omega

theorem wrapI32_of_range {x : Int} (h0 : -2147483648 ≤ x) (h1 : x ≤ 2147483647) :
    wrapI32 x = x := by
  unfold wrapI32; omega

theorem divI32_of_nonneg {a b : Int} (ha : 0 ≤ a) (ha1 : a ≤ 2147483647) (hb : 0 < b) :
    divI32 a b = a / b := by
  unfold divI32
  rw [Int.tdiv_eq_ediv ha (le_of_lt hb)]
  have h0 : 0 ≤ a / b := Int.ediv_nonneg ha (le_of_lt hb)
  have h1 : a / b ≤ a := Int.ediv_le_self b ha
  exact wrapI32_of_range (by omega) (by omega)

/-- Integer division by a positive divisor is the floor of the rational quotient. -/
theorem floor_div_eq (a N : Int) (hN : 0 < N) : ⌊(a : ℚ) / (N : ℚ)⌋ = a / N := by
  obtain ⟨d, rfl⟩ := Int.eq_ofNat_of_zero_le (le_of_lt hN)
  exact_mod_cast Rat.floor_intCast_div_natCast a d

/-! ## Time sampler: theorems -/

theorem tick_handler_last_time (tick_time : Tm) (r0 r1 r2 : Int) (s : State) :
    (prv_tick_handler tick_time r0 r1 r2 s).s_last_time =
      ⟨wrapU8 (subI32 (wrapU8 tick_time.tm_hour)
          (if wrapU8 tick_time.tm_hour > 12 then 12 else 0)),
        wrapU8 tick_time.tm_min⟩ := by
  unfold prv_tick_handler
  simp only []
  split <;> rfl

theorem folded_hour_eq {h : Int} (h0 : 0 ≤ h) (h1 : h ≤ 23) :
    wrapU8 (subI32 (wrapU8 h) (if wrapU8 h > 12 then 12 else 0)) =
      if h > 12 then h - 12 else h := by
  rw [wrapU8_of_range h0 (by omega)]
  unfold subI32
  split
  · rw [wrapI32_of_range (by omega) (by omega), wrapU8_of_range (by omega) (by omega)]
  · rw [wrapI32_of_range (by omega) (by omega), wrapU8_of_range (by omega) (by omega)]
    omega

/-- C1: for a wall-clock hour `h` in 0..23 and minute `m` in 0..59,
`prv_tick_handler` stores `hours = (h - 12 if h > 12 else h)` and `minutes = m`;
the stored hours lie in 0..12, so the 8-bit store does not wrap; 13:00 is
stored as hours 1, minutes 0. -/
theorem C1_tick_handler_folded_hour (h m r0 r1 r2 : Int) (s : State)
    (hh0 : 0 ≤ h) (hh1 : h ≤ 23) (hm0 : 0 ≤ m) (hm1 : m ≤ 59) :
    (prv_tick_handler ⟨h, m⟩ r0 r1 r2 s).s_last_time = ⟨if h > 12 then h - 12 else h, m⟩ ∧
    0 ≤ (prv_tick_handler ⟨h, m⟩ r0 r1 r2 s).s_last_time.hours ∧
    (prv_tick_handler ⟨h, m⟩ r0 r1 r2 s).s_last_time.hours ≤ 12 ∧
    (prv_tick_handler ⟨13, 0⟩ r0 r1 r2 s).s_last_time = ⟨1, 0⟩ := by
  have key : ∀ h' m' : Int, 0 ≤ h' → h' ≤ 23 → 0 ≤ m' → m' ≤ 59 →
      (prv_tick_handler ⟨h', m'⟩ r0 r1 r2 s).s_last_time =
        ⟨if h' > 12 then h' - 12 else h', m'⟩ := by
    intro h' m' a b c d
    rw [tick_handler_last_time]
    simp only []
    rw [folded_hour_eq a b, wrapU8_of_range c (by omega)]
  refine ⟨key h m hh0 hh1 hm0 hm1, ?_, ?_, ?_⟩
  · rw [key h m hh0 hh1 hm0 hm1]; simp only []; split <;> omega
  · rw [key h m hh0 hh1 hm0 hm1]; simp only []; split <;> omega
  · rw [key 13 0 (by decide) (by decide) (by decide) (by decide)]; rfl

/-- C1, instance: the tick at 13:00 on the initial state. -/
theorem C1_tick_handler_folded_hour_witness :
    (prv_tick_handler ⟨13, 0⟩ 7 8 9 initialState).s_last_time =
        ⟨if (13 : Int) > 12 then 13 - 12 else 13, 0⟩ ∧
    0 ≤ (prv_tick_handler ⟨13, 0⟩ 7 8 9 initialState).s_last_time.hours ∧
    (prv_tick_handler ⟨13, 0⟩ 7 8 9 initialState).s_last_time.hours ≤ 12 ∧
    (prv_tick_handler ⟨13, 0⟩ 7 8 9 initialState).s_last_time = ⟨1, 0⟩ :=
  C1_tick_handler_folded_hour 13 0 7 8 9 initialState (by decide) (by decide) (by decide)
    (by decide)

/-- C2, counterexample: the tick at 12:00 stores hours 12, which is not in
0..11. -/
theorem C2_hours_12_stored_as_12 :
    (prv_tick_handler ⟨12, 0⟩ 0 0 0 initialState).s_last_time.hours = 12 ∧
    ¬ (0 ≤ (prv_tick_handler ⟨12, 0⟩ 0 0 0 initialState).s_last_time.hours ∧
        (prv_tick_handler ⟨12, 0⟩ 0 0 0 initialState).s_last_time.hours ≤ 11) := by
  decide

/-- C2, amended: for a wall-clock hour `h` in 0..23 the stored hours lie in
0..12; they lie in 0..11 exactly when `h` is not 12, and noon is stored
as 12. -/
theorem C2_stored_hours_range (h m r0 r1 r2 : Int) (s : State)
    (hh0 : 0 ≤ h) (hh1 : h ≤ 23) :
    0 ≤ (prv_tick_handler ⟨h, m⟩ r0 r1 r2 s).s_last_time.hours ∧
    (prv_tick_handler ⟨h, m⟩ r0 r1 r2 s).s_last_time.hours ≤ 12 ∧
    ((prv_tick_handler ⟨h, m⟩ r0 r1 r2 s).s_last_time.hours ≤ 11 ↔ h ≠ 12) ∧
    (h = 12 → (prv_tick_handler ⟨h, m⟩ r0 r1 r2 s).s_last_time.hours = 12) := by
  rw [tick_handler_last_time]
  simp only []
  rw [folded_hour_eq hh0 hh1]
  split <;> omega

/-- C2, amended, instance: the tick at 12:00 on the initial state. -/
theorem C2_stored_hours_range_witness :
    0 ≤ (prv_tick_handler ⟨12, 30⟩ 1 2 3 initialState).s_last_time.hours ∧
    (prv_tick_handler ⟨12, 30⟩ 1 2 3 initialState).s_last_time.hours ≤ 12 ∧
    ((prv_tick_handler ⟨12, 30⟩ 1 2 3 initialState).s_last_time.hours ≤ 11 ↔ (12 : Int) ≠ 12) ∧
    ((12 : Int) = 12 →
      (prv_tick_handler ⟨12, 30⟩ 1 2 3 initialState).s_last_time.hours = 12) :=
  C2_stored_hours_range 12 30 1 2 3 initialState (by decide) (by decide)

/-! ## Animation progress: theorems -/

theorem mul_le_bound {p f N : Int} (hp0 : 0 ≤ p) (hpN : p ≤ N) (hf0 : 0 ≤ f) (hf1 : f ≤ 255) :
    0 ≤ p * f ∧ p * f ≤ N * f ∧ N * f ≤ N * 255 := by
  have hN : 0 ≤ N := le_trans hp0 hpN
  exact ⟨mul_nonneg hp0 hf0, mul_le_mul_of_nonneg_right hpN hf0,
    mul_le_mul_of_nonneg_left hf1 hN⟩

/-- Value of `prv_anim_percentage` when the product does not overflow. -/
theorem anim_percentage_eq (sdk : Sdk) {p f : Int}
    (hN : 0 < sdk.ANIMATION_NORMALIZED_MAX)
    (hNb : sdk.ANIMATION_NORMALIZED_MAX * 255 ≤ 2147483647)
    (hp0 : 0 ≤ p) (hpN : p ≤ sdk.ANIMATION_NORMALIZED_MAX) (hf0 : 0 ≤ f) (hf1 : f ≤ 255) :
    prv_anim_percentage sdk p f = p * f / sdk.ANIMATION_NORMALIZED_MAX := by
  obtain ⟨h0, h1, h2⟩ := mul_le_bound hp0 hpN hf0 hf1
  unfold prv_anim_percentage mulI32
  rw [wrapI32_of_range (by omega) (by omega)]
  exact divI32_of_nonneg h0 (by omega) hN

theorem anim_percentage_le (sdk : Sdk) {p f : Int}
    (hN : 0 < sdk.ANIMATION_NORMALIZED_MAX)
    (hp0 : 0 ≤ p) (hpN : p ≤ sdk.ANIMATION_NORMALIZED_MAX) (hf0 : 0 ≤ f) :
    0 ≤ p * f / sdk.ANIMATION_NORMALIZED_MAX ∧ p * f / sdk.ANIMATION_NORMALIZED_MAX ≤ f := by
  constructor
  · exact Int.ediv_nonneg (mul_nonneg hp0 hf0) (le_of_lt hN)
  · apply Int.ediv_le_of_le_mul hN
    calc p * f ≤ sdk.ANIMATION_NORMALIZED_MAX * f := mul_le_mul_of_nonneg_right hpN hf0
      _ = f * sdk.ANIMATION_NORMALIZED_MAX := mul_comm _ _

theorem anim_percentage_full (sdk : Sdk) {f : Int}
    (hN : 0 < sdk.ANIMATION_NORMALIZED_MAX)
    (hNb : sdk.ANIMATION_NORMALIZED_MAX * 255 ≤ 2147483647)
    (hf0 : 0 ≤ f) (hf1 : f ≤ 255) :
    prv_anim_percentage sdk sdk.ANIMATION_NORMALIZED_MAX f = f := by
  rw [anim_percentage_eq sdk hN hNb (le_of_lt hN) (le_refl _) hf0 hf1]
  exact Int.mul_ediv_cancel_left f (ne_of_gt hN)

theorem radius_update_radius (sdk : Sdk) (anim : Nat) (p : Int) (s : State) :
    (prv_radius_update sdk anim p s).s_radius =
      wrapU8 (prv_anim_percentage sdk p s.s_radius_final) := rfl

/-- C3: for `finalRadius` in 0..255 the radius set by `prv_radius_update` is
`floor (progress * finalRadius / ANIMATION_NORMALIZED_MAX)` for every progress
in `0..ANIMATION_NORMALIZED_MAX`; it is 0 at progress 0, exactly `finalRadius`
at progress `ANIMATION_NORMALIZED_MAX`, and non-decreasing in the progress. -/
theorem C3_radius_update_linear (sdk : Sdk) (anim : Nat) (s : State)
    (hN : 0 < sdk.ANIMATION_NORMALIZED_MAX)
    (hNb : sdk.ANIMATION_NORMALIZED_MAX * 255 ≤ 2147483647)
    (hf0 : 0 ≤ s.s_radius_final) (hf1 : s.s_radius_final ≤ 255) :
    (prv_radius_update sdk anim 0 s).s_radius = 0 ∧
    (prv_radius_update sdk anim sdk.ANIMATION_NORMALIZED_MAX s).s_radius = s.s_radius_final ∧
    (∀ p : Int, 0 ≤ p → p ≤ sdk.ANIMATION_NORMALIZED_MAX →
      (prv_radius_update sdk anim p s).s_radius =
          p * s.s_radius_final / sdk.ANIMATION_NORMALIZED_MAX ∧
      (prv_radius_update sdk anim p s).s_radius =
          ⌊((p : ℚ) * (s.s_radius_final : ℚ)) / (sdk.ANIMATION_NORMALIZED_MAX : ℚ)⌋) ∧
    (∀ p q : Int, 0 ≤ p → p ≤ q → q ≤ sdk.ANIMATION_NORMALIZED_MAX →
      (prv_radius_update sdk anim p s).s_radius ≤ (prv_radius_update sdk anim q s).s_radius) := by
  have val : ∀ p : Int, 0 ≤ p → p ≤ sdk.ANIMATION_NORMALIZED_MAX →
      (prv_radius_update sdk anim p s).s_radius =
        p * s.s_radius_final / sdk.ANIMATION_NORMALIZED_MAX := by
    intro p hp0 hpN
    rw [radius_update_radius, anim_percentage_eq sdk hN hNb hp0 hpN hf0 hf1]
    obtain ⟨a, b⟩ := anim_percentage_le sdk hN hp0 hpN hf0
    exact wrapU8_of_range a (by omega)
  refine ⟨?_, ?_, ?_, ?_⟩
  · rw [val 0 (le_refl _) (le_of_lt hN)]; simp
  · rw [val _ (le_of_lt hN) (le_refl _)]
    exact Int.mul_ediv_cancel_left _ (ne_of_gt hN)
  · intro p hp0 hpN
    refine ⟨val p hp0 hpN, ?_⟩
    rw [val p hp0 hpN, ← floor_div_eq _ _ hN]
    push_cast
    rfl
  · intro p q hp0 hpq hqN
    rw [val p hp0 (le_trans hpq hqN), val q (le_trans hp0 hpq) hqN]
    exact Int.ediv_le_ediv hN (mul_le_mul_of_nonneg_right hpq hf0)

/-- C3, instance: final radius 75 with the firmware's progress range 0..65535;
progress 0, full progress and progress 30000. -/
theorem C3_radius_update_linear_witness :
    (prv_radius_update sampleSdk 0 0 { initialState with s_radius_final := 75 }).s_radius = 0 ∧
    (prv_radius_update sampleSdk 0 sampleSdk.ANIMATION_NORMALIZED_MAX
        { initialState with s_radius_final := 75 }).s_radius = 75 ∧
    (prv_radius_update sampleSdk 0 30000 { initialState with s_radius_final := 75 }).s_radius =
        30000 * 75 / sampleSdk.ANIMATION_NORMALIZED_MAX :=
  have h := C3_radius_update_linear sampleSdk 0 { initialState with s_radius_final := 75 }
    (by decide) (by decide) (by decide) (by decide)
  ⟨h.1, h.2.1, (h.2.2.1 30000 (by decide) (by decide)).1⟩

/-! ## Hands animation: theorems -/

theorem hours_to_minutes_eq {h : Int} (h0 : 0 ≤ h) (h1 : h ≤ 12) :
    prv_hours_to_minutes h = 5 * h := by
  unfold prv_hours_to_minutes mulI32
  rw [wrapI32_of_range (by omega) (by omega), divI32_of_nonneg (by omega) (by omega) (by decide)]
  omega

theorem hands_update_anim_time (sdk : Sdk) (anim : Nat) (p : Int) (s : State) :
    (prv_hands_update sdk anim p s).s_anim_time =
      ⟨wrapU8 (prv_anim_percentage sdk p (prv_hours_to_minutes s.s_last_time.hours)),
       wrapU8 (prv_anim_percentage sdk p s.s_last_time.minutes)⟩ := rfl

/-- The animated reading after `prv_hands_update` at full progress. -/
theorem hands_update_full (sdk : Sdk) (anim : Nat) (s : State)
    (hN : 0 < sdk.ANIMATION_NORMALIZED_MAX)
    (hNb : sdk.ANIMATION_NORMALIZED_MAX * 255 ≤ 2147483647)
    (hh0 : 0 ≤ s.s_last_time.hours) (hh1 : s.s_last_time.hours ≤ 12)
    (hm0 : 0 ≤ s.s_last_time.minutes) (hm1 : s.s_last_time.minutes ≤ 59) :
    (prv_hands_update sdk anim sdk.ANIMATION_NORMALIZED_MAX s).s_anim_time =
      ⟨5 * s.s_last_time.hours, s.s_last_time.minutes⟩ := by
  rw [hands_update_anim_time, hours_to_minutes_eq hh0 hh1,
    anim_percentage_full sdk hN hNb (by omega) (by omega),
    anim_percentage_full sdk hN hNb hm0 (by omega),
    wrapU8_of_range (by omega) (by omega), wrapU8_of_range hm0 (by omega)]

/-- C4: for a ClockReading with hours in 0..12 and minutes in 0..59,
`prv_hands_update` at full progress sets `animatedMinutes = lastMinutes` and
`animatedHours = prv_hours_to_minutes lastHours`; `prv_hours_to_minutes h` is
`h * 60 / 12` with remainder 0, that is `5 * h`, and it is non-decreasing on
0..12. -/
theorem C4_hands_update_full_progress (sdk : Sdk) (anim : Nat) (s : State)
    (hN : 0 < sdk.ANIMATION_NORMALIZED_MAX)
    (hNb : sdk.ANIMATION_NORMALIZED_MAX * 255 ≤ 2147483647)
    (hh0 : 0 ≤ s.s_last_time.hours) (hh1 : s.s_last_time.hours ≤ 12)
    (hm0 : 0 ≤ s.s_last_time.minutes) (hm1 : s.s_last_time.minutes ≤ 59) :
    (prv_hands_update sdk anim sdk.ANIMATION_NORMALIZED_MAX s).s_anim_time.minutes =
        s.s_last_time.minutes ∧
    (prv_hands_update sdk anim sdk.ANIMATION_NORMALIZED_MAX s).s_anim_time.hours =
        prv_hours_to_minutes s.s_last_time.hours ∧
    prv_hours_to_minutes s.s_last_time.hours = s.s_last_time.hours * 60 / 12 ∧
    s.s_last_time.hours * 60 % 12 = 0 ∧
    prv_hours_to_minutes s.s_last_time.hours = 5 * s.s_last_time.hours ∧
    (∀ h1 h2 : Int, 0 ≤ h1 → h1 ≤ h2 → h2 ≤ 12 →
      prv_hours_to_minutes h1 ≤ prv_hours_to_minutes h2) := by
  have hfull := hands_update_full sdk anim s hN hNb hh0 hh1 hm0 hm1
  have he := hours_to_minutes_eq hh0 hh1
  refine ⟨?_, ?_, ?_, ?_, he, ?_⟩
  · rw [hfull]
  · rw [hfull, he]
  · rw [he]; omega
  · omega
  · intro h1 h2 a b c
    rw [hours_to_minutes_eq a (by omega), hours_to_minutes_eq (by omega) c]
    omega

/-- C4, instance: the reading 03:15 with the firmware's progress range. -/
theorem C4_hands_update_full_progress_witness :
    (prv_hands_update sampleSdk 0 sampleSdk.ANIMATION_NORMALIZED_MAX
        { initialState with s_last_time := ⟨3, 15⟩ }).s_anim_time.minutes = 15 ∧
    (prv_hands_update sampleSdk 0 sampleSdk.ANIMATION_NORMALIZED_MAX
        { initialState with s_last_time := ⟨3, 15⟩ }).s_anim_time.hours =
      prv_hours_to_minutes 3 ∧
    prv_hours_to_minutes 3 = 5 * 3 ∧
    prv_hours_to_minutes 11 ≤ prv_hours_to_minutes 12 :=
  have h := C4_hands_update_full_progress sampleSdk 0
    { initialState with s_last_time := ⟨3, 15⟩ }
    (by decide) (by decide) (by decide) (by decide) (by decide) (by decide)
  ⟨h.1, h.2.1, h.2.2.2.2.1, h.2.2.2.2.2 11 12 (by decide) (by decide) (by decide)⟩

/-! ## Canvas creation: theorems -/

theorem create_canvas_radius_final (bounds : GRect) (s : State) :
    (prv_create_canvas bounds s).s_radius_final =
      wrapU8 (divI32 (subI32 bounds.size.w 30) 2) := rfl

theorem update_proc_fill_circle (sdk : Sdk) (full_bounds bounds : GRect) (s : State) :
    DrawCmd.fill_circle (sdk.grect_center_point bounds) s.s_radius ∈
      (prv_update_proc sdk full_bounds bounds s).2 := by
  simp [prv_update_proc, draw_face]

/-- C9: for a canvas width `w` with `30 ≤ w ≤ 540`, `prv_create_canvas` sets
`finalRadius = (w - 30) / 2`; the radius update at full progress then sets the
radius to that value, and the renderer fills a disc of that radius; width 180
gives 75. -/
theorem C9_final_radius_from_width (sdk : Sdk) (anim : Nat) (bounds full_bounds vis : GRect)
    (s : State)
    (hN : 0 < sdk.ANIMATION_NORMALIZED_MAX)
    (hNb : sdk.ANIMATION_NORMALIZED_MAX * 255 ≤ 2147483647)
    (hw0 : 30 ≤ bounds.size.w) (hw1 : bounds.size.w ≤ 540) :
    (prv_create_canvas bounds s).s_radius_final = (bounds.size.w - 30) / 2 ∧
    (prv_radius_update sdk anim sdk.ANIMATION_NORMALIZED_MAX
        (prv_create_canvas bounds s)).s_radius = (bounds.size.w - 30) / 2 ∧
    DrawCmd.fill_circle (sdk.grect_center_point vis) ((bounds.size.w - 30) / 2) ∈
      (prv_update_proc sdk full_bounds vis
        (prv_radius_update sdk anim sdk.ANIMATION_NORMALIZED_MAX
          (prv_create_canvas bounds s))).2 ∧
    (bounds.size.w = 180 →
      (prv_create_canvas bounds s).s_radius_final = 75 ∧
      (prv_radius_update sdk anim sdk.ANIMATION_NORMALIZED_MAX
        (prv_create_canvas bounds s)).s_radius = 75) := by
  have hf : (prv_create_canvas bounds s).s_radius_final = (bounds.size.w - 30) / 2 := by
    rw [create_canvas_radius_final]
    unfold subI32
    rw [wrapI32_of_range (by omega) (by omega),
      divI32_of_nonneg (by omega) (by omega) (by decide)]
    exact wrapU8_of_range (by omega) (by omega)
  have hr : (prv_radius_update sdk anim sdk.ANIMATION_NORMALIZED_MAX
      (prv_create_canvas bounds s)).s_radius = (bounds.size.w - 30) / 2 := by
    rw [radius_update_radius, hf, anim_percentage_full sdk hN hNb (by omega) (by omega)]
    exact wrapU8_of_range (by omega) (by omega)
  refine ⟨hf, hr, ?_, ?_⟩
  · rw [← hr]
    exact update_proc_fill_circle sdk full_bounds vis _
  · intro hw
    rw [hf, hr, hw]
    decide

/-- C9, instance: a 180 x 180 canvas with the firmware's progress range. -/
theorem C9_final_radius_from_width_witness :
    (prv_create_canvas ⟨⟨0, 0⟩, ⟨180, 180⟩⟩ initialState).s_radius_final = 75 ∧
    (prv_radius_update sampleSdk 0 sampleSdk.ANIMATION_NORMALIZED_MAX
        (prv_create_canvas ⟨⟨0, 0⟩, ⟨180, 180⟩⟩ initialState)).s_radius = 75 :=
  (C9_final_radius_from_width sampleSdk 0 ⟨⟨0, 0⟩, ⟨180, 180⟩⟩ ⟨⟨0, 0⟩, ⟨180, 180⟩⟩
    ⟨⟨0, 0⟩, ⟨180, 180⟩⟩ initialState (by decide) (by decide) (by decide) (by decide)).2.2.2 rfl

/-! ## Unobstructed-area handlers: theorems -/

/-- C6: while `s_animating` is true, `prv_unobstructed_will_change` and
`prv_unobstructed_did_change` return the state unchanged (no variable is
written and no animation is scheduled); while it is false, will-change sets
`s_radius` to 0 and leaves ClockReading, palette, `s_radius_final` and
`s_animating` unchanged, and did-change schedules the radius animation and the
hands animation and changes nothing else. -/
theorem C6_unobstructed_handlers (s : State) :
    (s.s_animating = true →
      prv_unobstructed_will_change s = s ∧ prv_unobstructed_did_change s = s) ∧
    (s.s_animating = false →
      (prv_unobstructed_will_change s).s_radius = 0 ∧
      (prv_unobstructed_will_change s).s_last_time = s.s_last_time ∧
      (prv_unobstructed_will_change s).s_color_channels_0 = s.s_color_channels_0 ∧
      (prv_unobstructed_will_change s).s_color_channels_1 = s.s_color_channels_1 ∧
      (prv_unobstructed_will_change s).s_color_channels_2 = s.s_color_channels_2 ∧
      (prv_unobstructed_will_change s).s_radius_final = s.s_radius_final ∧
      (prv_unobstructed_will_change s).s_animating = s.s_animating ∧
      (prv_unobstructed_will_change s).scheduled = s.scheduled ∧
      prv_unobstructed_did_change s =
        { s with scheduled := s.scheduled ++
            [{ duration := 500, delay := 600, easeInOut := true,
               update := UpdateFn.radius_update, handlers := false },
             { duration := 1000, delay := 600, easeInOut := true,
               update := UpdateFn.hands_update, handlers := true }] }) := by
  constructor
  · intro h
    simp [prv_unobstructed_will_change, prv_unobstructed_did_change, h]
  · intro h
    simp [prv_unobstructed_will_change, prv_unobstructed_did_change, h, prv_start_animation,
      prv_animate, ANIMATION_DURATION, ANIMATION_DELAY, mulI32, wrapI32]

/-- C6, instance: the state right after a start callback (animating) and the
initial state with radius 75 (not animating). -/
theorem C6_unobstructed_handlers_witness :
    (prv_unobstructed_will_change (prv_animation_started 0 initialState) =
        prv_animation_started 0 initialState ∧
      prv_unobstructed_did_change (prv_animation_started 0 initialState) =
        prv_animation_started 0 initialState) ∧
    (prv_unobstructed_will_change { initialState with s_radius := 75 }).s_radius = 0 :=
  ⟨(C6_unobstructed_handlers (prv_animation_started 0 initialState)).1 rfl,
   ((C6_unobstructed_handlers { initialState with s_radius := 75 }).2 rfl).1⟩

/-! ## Renderer: which hands are drawn -/

/-- C7: for a radius in 0..255 the calls `prv_update_proc` makes are those of
the face followed by the hour-hand line exactly when `radius > 20` and then the
minute-hand line exactly when `radius > 10`; the face itself contains no line;
a drawn hand has a strictly positive length factor, `radius - 20` for the hour
hand and `radius - 10` for the minute hand. -/
theorem C7_hands_drawn_iff (sdk : Sdk) (full_bounds bounds : GRect) (s : State)
    (h0 : 0 ≤ s.s_radius) (h1 : s.s_radius ≤ 255) :
    (prv_update_proc sdk full_bounds bounds s).2 =
      draw_face sdk full_bounds (sdk.grect_center_point bounds)
          (prv_update_proc sdk full_bounds bounds s).1 ++
        (if s.s_radius > 20 then
          [DrawCmd.draw_line (sdk.grect_center_point bounds)
            (hour_hand sdk (sdk.grect_center_point bounds)
              (prv_update_proc sdk full_bounds bounds s).1)]
         else []) ++
        (if s.s_radius > 10 then
          [DrawCmd.draw_line (sdk.grect_center_point bounds)
            (minute_hand sdk (sdk.grect_center_point bounds)
              (prv_update_proc sdk full_bounds bounds s).1)]
         else []) ∧
    (∀ p q : GPoint, DrawCmd.draw_line p q ∉
      draw_face sdk full_bounds (sdk.grect_center_point bounds)
        (prv_update_proc sdk full_bounds bounds s).1) ∧
    (draw_hour_hand sdk (sdk.grect_center_point bounds)
        (prv_update_proc sdk full_bounds bounds s).1 ≠ [] ↔ s.s_radius > 2 * HAND_MARGIN) ∧
    (draw_minute_hand sdk (sdk.grect_center_point bounds)
        (prv_update_proc sdk full_bounds bounds s).1 ≠ [] ↔ s.s_radius > HAND_MARGIN) ∧
    (s.s_radius > 2 * HAND_MARGIN →
      hour_hand_length (prv_update_proc sdk full_bounds bounds s).1 =
          s.s_radius - 2 * HAND_MARGIN ∧
      0 < hour_hand_length (prv_update_proc sdk full_bounds bounds s).1) ∧
    (s.s_radius > HAND_MARGIN →
      minute_hand_length (prv_update_proc sdk full_bounds bounds s).1 =
          s.s_radius - HAND_MARGIN ∧
      0 < minute_hand_length (prv_update_proc sdk full_bounds bounds s).1) := by
  have h20 : mulI32 2 HAND_MARGIN = 20 := by decide
  have hl : hour_hand_length (prv_update_proc sdk full_bounds bounds s).1 = s.s_radius - 20 := by
    show subI32 s.s_radius (mulI32 2 HAND_MARGIN) = s.s_radius - 20
    rw [h20]
    exact wrapI32_of_range (by omega) (by omega)
  have ml : minute_hand_length (prv_update_proc sdk full_bounds bounds s).1 =
      s.s_radius - 10 := by
    show subI32 s.s_radius HAND_MARGIN = s.s_radius - 10
    exact wrapI32_of_range (by unfold HAND_MARGIN; omega) (by unfold HAND_MARGIN; omega)
  refine ⟨?_, ?_, ?_, ?_, ?_, ?_⟩
  · simp only [prv_update_proc, draw_hour_hand, draw_minute_hand, h20]
    rfl
  · intro p q
    simp [draw_face]
  · simp only [prv_update_proc, draw_hour_hand, h20]
    unfold HAND_MARGIN
    split <;> simp_all
  · simp only [prv_update_proc, draw_minute_hand, HAND_MARGIN]
    split <;> simp_all
  · intro hr
    rw [hl]
    unfold HAND_MARGIN at hr ⊢
    omega
  · intro hr
    rw [ml]
    unfold HAND_MARGIN at hr ⊢
    omega

/-- C7, instance: radius 15, where only the minute hand is drawn. -/
theorem C7_hands_drawn_iff_witness :
    (draw_hour_hand sampleSdk (sampleSdk.grect_center_point ⟨⟨0, 0⟩, ⟨180, 180⟩⟩)
        (prv_update_proc sampleSdk ⟨⟨0, 0⟩, ⟨180, 180⟩⟩ ⟨⟨0, 0⟩, ⟨180, 180⟩⟩
          { initialState with s_radius := 15 }).1 ≠ [] ↔ (15 : Int) > 2 * HAND_MARGIN) ∧
    (draw_minute_hand sampleSdk (sampleSdk.grect_center_point ⟨⟨0, 0⟩, ⟨180, 180⟩⟩)
        (prv_update_proc sampleSdk ⟨⟨0, 0⟩, ⟨180, 180⟩⟩ ⟨⟨0, 0⟩, ⟨180, 180⟩⟩
          { initialState with s_radius := 15 }).1 ≠ [] ↔ (15 : Int) > HAND_MARGIN) :=
  have h := C7_hands_drawn_iff sampleSdk ⟨⟨0, 0⟩, ⟨180, 180⟩⟩ ⟨⟨0, 0⟩, ⟨180, 180⟩⟩
    { initialState with s_radius := 15 } (by decide) (by decide)
  ⟨h.2.2.1, h.2.2.2.1⟩

/-! ## The animating flag over event sequences -/

theorem run_concat (sdk : Sdk) (es : List Event) (e : Event) (s : State) :
    run sdk (es ++ [e]) s = step sdk e (run sdk es s) := by
  simp [run, List.foldl_append]

theorem tick_handler_animating (tick_time : Tm) (r0 r1 r2 : Int) (s : State) :
    (prv_tick_handler tick_time r0 r1 r2 s).s_animating = s.s_animating := by
  unfold prv_tick_handler
  simp only []
  split <;> rfl

theorem will_change_animating (s : State) :
    (prv_unobstructed_will_change s).s_animating = s.s_animating := by
  unfold prv_unobstructed_will_change
  split <;> rfl

theorem did_change_animating (s : State) :
    (prv_unobstructed_did_change s).s_animating = s.s_animating := by
  unfold prv_unobstructed_did_change
  split <;> rfl

/-- Effect of one callback on `s_animating`. -/
theorem step_animating (sdk : Sdk) (e : Event) (s : State) :
    (step sdk e s).s_animating =
      if e.isStart then true else if e.isStop then false else s.s_animating := by
  cases e with
  | animation_started a => rfl
  | animation_stopped a b => rfl
  | tick t r0 r1 r2 => exact tick_handler_animating t r0 r1 r2 s
  | radius_update a d => rfl
  | hands_update a d => rfl
  | unobstructed_will_change => exact will_change_animating s
  | unobstructed_did_change => exact did_change_animating s
  | update_proc fb b => rfl
  | window_load b => rfl

theorem isStart_iff (e : Event) : e.isStart = true ↔ ∃ a, e = Event.animation_started a := by
  cases e <;> simp [Event.isStart]

theorem concat_eq_started_split {es pre post : List Event} {e : Event} {a : Nat}
    (h : es ++ [e] = pre ++ Event.animation_started a :: post) :
    (post = [] ∧ e = Event.animation_started a) ∨
      ∃ post', post = post' ++ [e] ∧ es = pre ++ Event.animation_started a :: post' := by
  rcases List.eq_nil_or_concat post with hp | ⟨post', x, hp⟩
  · left
    subst hp
    have h2 : es ++ [e] = pre ++ [Event.animation_started a] := h
    have h3 := List.append_inj' h2 rfl
    exact ⟨rfl, by simpa using h3.2⟩
  · right
    rw [List.concat_eq_append] at hp
    subst hp
    have h2 : es ++ [e] = (pre ++ Event.animation_started a :: post') ++ [x] := by
      rw [h]; simp
    have h3 := List.append_inj' h2 rfl
    have hx : e = x := by simpa using h3.2
    subst hx
    exact ⟨post', rfl, h3.1⟩

/-- The flag after a sequence of callbacks from the initial state: it is true
exactly when some start callback has been delivered and no stop callback has
been delivered after it. -/
theorem animating_iff_started_not_stopped (sdk : Sdk) (es : List Event) :
    (run sdk es initialState).s_animating = true ↔
      ∃ pre a post, es = pre ++ Event.animation_started a :: post ∧
        ∀ e ∈ post, Event.isStop e = false := by
  induction es using List.reverseRecOn with
  | nil => simp [run, initialState]
  | append_singleton es e ih =>
    rw [run_concat, step_animating]
    by_cases hs : e.isStart = true
    · obtain ⟨a, rfl⟩ := (isStart_iff e).1 hs
      simp only [Event.isStart, if_true, true_iff]
      exact ⟨es, a, [], rfl, by simp⟩
    · have hs' : e.isStart = false := by simpa using hs
      by_cases ht : e.isStop = true
      · simp only [hs', ht, if_true, Bool.false_eq_true, if_false, false_iff]
        rintro ⟨pre, a, post, heq, hpost⟩
        rcases concat_eq_started_split heq with ⟨_, he⟩ | ⟨post', hp, _⟩
        · rw [he] at hs'
          simp [Event.isStart] at hs'
        · have := hpost e (by rw [hp]; simp)
          rw [ht] at this
          exact Bool.noConfusion this
      · have ht' : e.isStop = false := by simpa using ht
        simp only [hs', ht', Bool.false_eq_true, if_false]
        rw [ih]
        constructor
        · rintro ⟨pre, a, post, heq, hpost⟩
          refine ⟨pre, a, post ++ [e], by rw [heq]; simp, ?_⟩
          intro x hx
          rcases List.mem_append.1 hx with h | h
          · exact hpost x h
          · have : x = e := by simpa using h
            rw [this]; exact ht'
        · rintro ⟨pre, a, post, heq, hpost⟩
          rcases concat_eq_started_split heq with ⟨_, he⟩ | ⟨post', hp, hes⟩
          · rw [he] at hs'
            simp [Event.isStart] at hs'
          · refine ⟨pre, a, post', hes, ?_⟩
            intro x hx
            exact hpost x (by rw [hp]; exact List.mem_append_left _ hx)

/-- C5, counterexample: two hands animations overlap.  After the start
callback of animation 0, the start callback of animation 1 and the stop
callback of animation 0, animation 1 is between its start callback and its
stop callback, and `s_animating` is false. -/
theorem C5_overlapping_animations_clear_flag :
    betweenStartAndStop 1
        [Event.animation_started 0, Event.animation_started 1,
          Event.animation_stopped 0 true] = true ∧
    (run sampleSdk
        [Event.animation_started 0, Event.animation_started 1,
          Event.animation_stopped 0 true] initialState).s_animating = false := by
  constructor <;> rfl

/-- C5, amended: after any sequence of callbacks from the initial state,
`s_animating` is true exactly when a start callback of a hands animation has
been delivered and no stop callback of any hands animation has been delivered
after it; it is false initially, and no callback other than the start and the
stop callback changes it. -/
theorem C5_animating_flag_tracks_last_callback (sdk : Sdk) (es : List Event) :
    ((run sdk es initialState).s_animating = true ↔
      ∃ pre a post, es = pre ++ Event.animation_started a :: post ∧
        ∀ e ∈ post, Event.isStop e = false) ∧
    initialState.s_animating = false ∧
    (∀ (e : Event) (s : State), Event.isStart e = false → Event.isStop e = false →
      (step sdk e s).s_animating = s.s_animating) ∧
    (∀ (a : Nat) (s : State), (step sdk (Event.animation_started a) s).s_animating = true) ∧
    (∀ (a : Nat) (b : Bool) (s : State),
      (step sdk (Event.animation_stopped a b) s).s_animating = false) := by
  refine ⟨animating_iff_started_not_stopped sdk es, rfl, ?_, ?_, ?_⟩
  · intro e s h1 h2
    rw [step_animating, h1, h2]
    simp
  · intro a s; rfl
  · intro a b s; rfl

/-! ## C `float`: rounding lemmas -/

theorem roundHalfEven_intCast (n : Int) : roundHalfEven (n : ℚ) = n := by
  unfold roundHalfEven
  simp

/-- A number with at most 24 significant bits, `n * 2 ^ k` with `|n| < 2 ^ 24`
and `k` not below the smallest binary32 exponent, is a binary32 value: rounding
leaves it unchanged. -/
theorem roundBinary32_exact (n k : Int) (hn : |n| < 2 ^ 24) (hk : -149 ≤ k) :
    roundBinary32 ((n : ℚ) * 2 ^ k) = (n : ℚ) * 2 ^ k := by
  by_cases h0 : n = 0
  · simp [roundBinary32, h0]
  have h2k : (0 : ℚ) < 2 ^ k := zpow_pos (by norm_num) k
  have hq : (n : ℚ) * 2 ^ k ≠ 0 := mul_ne_zero (by exact_mod_cast h0) (ne_of_gt h2k)
  unfold roundBinary32
  rw [if_neg hq]
  have habs : 0 < |(n : ℚ) * 2 ^ k| := abs_pos.2 hq
  have hlt : |(n : ℚ) * 2 ^ k| < (2 : ℚ) ^ (k + 24) := by
    rw [abs_mul, abs_of_pos h2k, zpow_add₀ (by norm_num : (2 : ℚ) ≠ 0), mul_comm]
    apply mul_lt_mul_of_pos_left _ h2k
    have : ((|n| : Int) : ℚ) < ((2 ^ 24 : Int) : ℚ) := by exact_mod_cast hn
    push_cast at this
    rw [show (2 : ℚ) ^ (24 : ℤ) = 16777216 by norm_num]
    exact this
  have hL : Int.log 2 |(n : ℚ) * 2 ^ k| < k + 24 :=
    (Int.lt_zpow_iff_log_lt (R := ℚ) (b := 2) (by norm_num) habs).1 (by simpa using hlt)
  have he : max (Int.log 2 |(n : ℚ) * 2 ^ k|) (-126) - 23 ≤ k := by omega
  obtain ⟨d, hd⟩ : ∃ d : ℕ, k = (max (Int.log 2 |(n : ℚ) * 2 ^ k|) (-126) - 23) + d :=
    ⟨(k - (max (Int.log 2 |(n : ℚ) * 2 ^ k|) (-126) - 23)).toNat, by omega⟩
  unfold ulpBinary32
  generalize max (Int.log 2 |(n : ℚ) * 2 ^ k|) (-126) - 23 = e at hd he
  have hpe : (0 : ℚ) < 2 ^ e := zpow_pos (by norm_num) e
  have hdiv : (n : ℚ) * 2 ^ k / 2 ^ e = ((n * 2 ^ d : Int) : ℚ) := by
    rw [hd, zpow_add₀ (by norm_num : (2 : ℚ) ≠ 0), zpow_natCast]
    push_cast
    field_simp
    ring
  rw [hdiv, roundHalfEven_intCast]
  rw [hd, zpow_add₀ (by norm_num : (2 : ℚ) ≠ 0), zpow_natCast]
  push_cast
  ring

/-- Integers of magnitude below `2 ^ 24` convert to `float` without rounding. -/
theorem f32OfInt_exact {i : Int} (h0 : -16777215 ≤ i) (h1 : i ≤ 16777215) :
    f32OfInt i = (i : ℚ) := by
  have h := roundBinary32_exact i 0 (by rw [abs_lt]; constructor <;> omega) (by decide)
  simpa [f32OfInt] using h

/-- Dividing an integer of magnitude below `2 ^ 24` by 65536 is exact. -/
theorem roundBinary32_div_65536 {i : Int} (h0 : -16777215 ≤ i) (h1 : i ≤ 16777215) :
    roundBinary32 ((i : ℚ) / 65536) = (i : ℚ) / 65536 := by
  have h := roundBinary32_exact i (-16) (by rw [abs_lt]; constructor <;> omega) (by decide)
  have e : (i : ℚ) * 2 ^ (-16 : ℤ) = (i : ℚ) / 65536 := by
    rw [zpow_neg, div_eq_mul_inv]
    norm_num
  rwa [e] at h

/-- Quarters of an integer of magnitude below `2 ^ 24` are binary32 values. -/
theorem roundBinary32_quarters {i : Int} (h0 : -16777215 ≤ i) (h1 : i ≤ 16777215) :
    roundBinary32 ((i : ℚ) / 4) = (i : ℚ) / 4 := by
  have h := roundBinary32_exact i (-2) (by rw [abs_lt]; constructor <;> omega) (by decide)
  have e : (i : ℚ) * 2 ^ (-2 : ℤ) = (i : ℚ) / 4 := by
    rw [zpow_neg, div_eq_mul_inv]
    norm_num
  rwa [e] at h

/-- The rounding is not the identity: `2 ^ 24 + 1` has 25 significant bits and
is rounded to the even neighbour `2 ^ 24`. -/
theorem roundBinary32_16777217 : roundBinary32 16777217 = 16777216 := by
  have hlog : Int.log 2 |(16777217 : ℚ)| = 24 := by
    rw [abs_of_pos (by norm_num)]
    have h := Int.log_natCast (R := ℚ) 2 16777217
    have hn : Nat.log 2 16777217 = 24 := by norm_num [Nat.log]
    rw [hn] at h
    exact_mod_cast h
  have hu : ulpBinary32 16777217 = 2 := by
    unfold ulpBinary32
    rw [hlog]
    norm_num
  unfold roundBinary32
  rw [if_neg (by norm_num), hu]
  have hr : roundHalfEven ((16777217 : ℚ) / 2) = 8388608 := by
    have hf : ⌊(16777217 : ℚ) / 2⌋ = 8388608 := by
      rw [Int.floor_eq_iff]; norm_num
    unfold roundHalfEven
    simp only [hf]
    norm_num
  rw [hr]
  norm_num

/-! ## Renderer: angles -/

theorem minute_angle_int_eq (sdk : Sdk) (t : Time) (hT : sdk.TRIG_MAX_ANGLE = 65536)
    (hm0 : 0 ≤ t.minutes) (hm1 : t.minutes ≤ 59) :
    minute_angle_int sdk t = 65536 * t.minutes / 60 := by
  unfold minute_angle_int mulI32
  rw [hT, wrapI32_of_range (by omega) (by omega),
    divI32_of_nonneg (by omega) (by omega) (by decide)]

theorem hour_angle_base_eq (sdk : Sdk) (t : Time) (hT : sdk.TRIG_MAX_ANGLE = 65536)
    (hh0 : 0 ≤ t.hours) (hh1 : t.hours ≤ 12) :
    hour_angle_base sdk false t = 65536 * t.hours / 12 := by
  unfold hour_angle_base mulI32
  simp only [Bool.false_eq_true, if_false]
  rw [hT, wrapI32_of_range (by omega) (by omega),
    divI32_of_nonneg (by omega) (by omega) (by decide)]

/-- The two angles of the renderer for a reading with hours in 0..12 and
minutes in 0..59 when a full turn is 65536 units. -/
theorem angles_eq (sdk : Sdk) (t : Time) (hT : sdk.TRIG_MAX_ANGLE = 65536)
    (hh0 : 0 ≤ t.hours) (hh1 : t.hours ≤ 12) (hm0 : 0 ≤ t.minutes) (hm1 : t.minutes ≤ 59) :
    minute_angle sdk t = ((65536 * t.minutes / 60 : Int) : ℚ) ∧
    hour_angle sdk false t =
      roundBinary32 (((65536 * t.hours / 12 : Int) : ℚ) +
        roundBinary32 (((65536 * t.minutes / 60 : Int) : ℚ) / 65536 * 5461)) := by
  have hM : minute_angle sdk t = ((65536 * t.minutes / 60 : Int) : ℚ) := by
    unfold minute_angle
    rw [minute_angle_int_eq sdk t hT hm0 hm1]
    exact f32OfInt_exact (by omega) (by omega)
  refine ⟨hM, ?_⟩
  unfold hour_angle
  rw [hM, hour_angle_base_eq sdk t hT hh0 hh1, hT]
  have h12 : divI32 65536 12 = 5461 := by decide
  rw [h12, f32OfInt_exact (i := 65536 * t.hours / 12) (by omega) (by omega),
    f32OfInt_exact (i := 65536) (by decide) (by decide),
    f32OfInt_exact (i := 5461) (by decide) (by decide)]
  unfold f32Add f32Mul f32Div
  have hd := roundBinary32_div_65536 (i := 65536 * t.minutes / 60) (by omega) (by omega)
  push_cast at hd ⊢
  rw [hd]

/-- C8, counterexample: with a full turn of 65536 units, the minute angle at
00:01 is 1092 units, not `65536 / 60` units (6 degrees), and the hour angle at
03:15 is 17749.25 units, not `65536 * 97.5 / 360` units (97.5 degrees). -/
theorem C8_angles_are_truncated :
    minute_angle sampleSdk ⟨0, 1⟩ = 1092 ∧
    minute_angle sampleSdk ⟨0, 1⟩ ≠ 65536 * (1 : ℚ) / 60 ∧
    hour_angle sampleSdk false ⟨3, 15⟩ = 70997 / 4 ∧
    hour_angle sampleSdk false ⟨3, 15⟩ ≠ 65536 * ((975 : ℚ) / 10) / 360 := by
  have h1 := (angles_eq sampleSdk ⟨0, 1⟩ rfl (by decide) (by decide) (by decide)
    (by decide)).1
  have h2 := (angles_eq sampleSdk ⟨3, 15⟩ rfl (by decide) (by decide) (by decide)
    (by decide)).2
  have e1 : (65536 * (1 : Int) / 60 : Int) = 1092 := by decide
  have e2 : (65536 * (15 : Int) / 60 : Int) = 16384 := by decide
  have e3 : (65536 * (3 : Int) / 12 : Int) = 16384 := by decide
  simp only [e1] at h1
  simp only [e2, e3] at h2
  have q1 : ((16384 : Int) : ℚ) / 65536 * 5461 = ((5461 : Int) : ℚ) / 4 := by norm_num
  have q2 : ((16384 : Int) : ℚ) + ((5461 : Int) : ℚ) / 4 = ((70997 : Int) : ℚ) / 4 := by
    norm_num
  rw [q1, roundBinary32_quarters (by decide) (by decide), q2,
    roundBinary32_quarters (by decide) (by decide)] at h2
  refine ⟨?_, ?_, ?_, ?_⟩
  · rw [h1]; norm_num
  · rw [h1]; norm_num
  · rw [h2]; norm_num
  · rw [h2]; norm_num

/-- C8, amended: for a non-animating ClockReading with hours `h` in 0..12 and
minutes `m` in 0..59 and a full turn of 65536 units, the renderer reads the
ClockReading, its minute angle is the integer quotient `65536 * m / 60`, and
its hour angle is the `float` sum of the integer quotient `65536 * h / 12` and
the `float` product of `minuteAngle / 65536` and 5461, the integer quotient
`65536 / 12`.  At 03:15 the minute angle is 16384 units (90 degrees) and the
hour angle is 17749.25 units, which the lookup receives as 17749, the whole
number of units in 97.5 degrees. -/
theorem C8_angles_in_units (sdk : Sdk) (s : State) (hT : sdk.TRIG_MAX_ANGLE = 65536)
    (ha : s.s_animating = false)
    (hh0 : 0 ≤ s.s_last_time.hours) (hh1 : s.s_last_time.hours ≤ 12)
    (hm0 : 0 ≤ s.s_last_time.minutes) (hm1 : s.s_last_time.minutes ≤ 59) :
    mode_time s = s.s_last_time ∧
    minute_angle sdk (mode_time s) = ((65536 * s.s_last_time.minutes / 60 : Int) : ℚ) ∧
    hour_angle sdk s.s_animating (mode_time s) =
      roundBinary32 (((65536 * s.s_last_time.hours / 12 : Int) : ℚ) +
        roundBinary32 (((65536 * s.s_last_time.minutes / 60 : Int) : ℚ) / 65536 * 5461)) ∧
    (s.s_last_time = ⟨3, 15⟩ →
      minute_angle sdk (mode_time s) = 16384 ∧
      hour_angle sdk s.s_animating (mode_time s) = 70997 / 4 ∧
      f32ToI32 (hour_angle sdk s.s_animating (mode_time s)) = 17749 ∧
      ⌊65536 * ((975 : ℚ) / 10) / 360⌋ = 17749) := by
  have hmt : mode_time s = s.s_last_time := by simp [mode_time, ha]
  have hang := angles_eq sdk s.s_last_time hT hh0 hh1 hm0 hm1
  refine ⟨hmt, ?_, ?_, ?_⟩
  · rw [hmt]; exact hang.1
  · rw [hmt, ha]; exact hang.2
  · intro ht
    rw [hmt, ha, hang.1, hang.2, ht]
    simp only []
    have e2 : (65536 * (15 : Int) / 60 : Int) = 16384 := by decide
    have e3 : (65536 * (3 : Int) / 12 : Int) = 16384 := by decide
    have q1 : ((16384 : Int) : ℚ) / 65536 * 5461 = ((5461 : Int) : ℚ) / 4 := by norm_num
    have q2 : ((16384 : Int) : ℚ) + ((5461 : Int) : ℚ) / 4 = ((70997 : Int) : ℚ) / 4 := by
      norm_num
    rw [e2, e3, q1, roundBinary32_quarters (by decide) (by decide), q2,
      roundBinary32_quarters (by decide) (by decide)]
    refine ⟨by norm_num, by norm_num, ?_, ?_⟩
    · unfold f32ToI32
      have hf : ⌊((70997 : Int) : ℚ) / 4⌋ = 17749 := by
        rw [Int.floor_eq_iff]; norm_num
      rw [if_pos (by norm_num), hf]
      decide
    · rw [Int.floor_eq_iff]; norm_num

/-- C8, amended, instance: the reading 03:15, not animating, with the
firmware's constants. -/
theorem C8_angles_in_units_witness :
    minute_angle sampleSdk (mode_time { initialState with s_last_time := ⟨3, 15⟩ }) = 16384 ∧
    hour_angle sampleSdk false (mode_time { initialState with s_last_time := ⟨3, 15⟩ }) =
      70997 / 4 ∧
    f32ToI32 (hour_angle sampleSdk false
      (mode_time { initialState with s_last_time := ⟨3, 15⟩ })) = 17749 :=
  have h := (C8_angles_in_units sampleSdk { initialState with s_last_time := ⟨3, 15⟩ } rfl rfl
    (by decide) (by decide) (by decide) (by decide)).2.2.2 rfl
  ⟨h.1, h.2.1, h.2.2.1⟩

/-! ## No jump at the end of the hands animation -/

/-- The animating hour base on the 0..60 scale at `5 * h` is the non-animating
hour base at `h`. -/
theorem hour_angle_base_scaled (sdk : Sdk) (h m m' : Int)
    (hT0 : 0 ≤ sdk.TRIG_MAX_ANGLE) (hT1 : sdk.TRIG_MAX_ANGLE * 60 ≤ 2147483647)
    (hh0 : 0 ≤ h) (hh1 : h ≤ 12) :
    hour_angle_base sdk true ⟨5 * h, m⟩ = hour_angle_base sdk false ⟨h, m'⟩ := by
  have hx0 : 0 ≤ sdk.TRIG_MAX_ANGLE * h := mul_nonneg hT0 hh0
  have hx1 : sdk.TRIG_MAX_ANGLE * h ≤ sdk.TRIG_MAX_ANGLE * 12 :=
    mul_le_mul_of_nonneg_left hh1 hT0
  have e5 : sdk.TRIG_MAX_ANGLE * (5 * h) = 5 * (sdk.TRIG_MAX_ANGLE * h) := by ring
  unfold hour_angle_base mulI32
  simp only [if_true, Bool.false_eq_true, if_false]
  rw [e5, wrapI32_of_range (by omega) (by omega), wrapI32_of_range (by omega) (by omega),
    divI32_of_nonneg (by omega) (by omega) (by decide),
    divI32_of_nonneg (by omega) (by omega) (by decide)]
  omega

theorem hour_angle_congr (sdk : Sdk) (a b : Bool) (t u : Time)
    (hb : hour_angle_base sdk a t = hour_angle_base sdk b u) (hm : t.minutes = u.minutes) :
    hour_angle sdk a t = hour_angle sdk b u := by
  unfold hour_angle minute_angle minute_angle_int
  rw [hb, hm]

/-- C10: for a ClockReading with hours in 0..12 and minutes in 0..59, let
`prv_hands_update` run at full progress while `s_animating` is true and let the
stop callback follow.  The minute angle and the hour angle the renderer
computes from the AnimatedReading before the stop callback equal the angles it
computes from the ClockReading after it, and the renderer makes the same
drawing calls in both states. -/
theorem C10_no_jump_at_animation_end (sdk : Sdk) (anim : Nat) (stopped : Bool)
    (full_bounds bounds : GRect) (s : State)
    (hN : 0 < sdk.ANIMATION_NORMALIZED_MAX)
    (hNb : sdk.ANIMATION_NORMALIZED_MAX * 255 ≤ 2147483647)
    (hT0 : 0 ≤ sdk.TRIG_MAX_ANGLE) (hT1 : sdk.TRIG_MAX_ANGLE * 60 ≤ 2147483647)
    (ha : s.s_animating = true)
    (hh0 : 0 ≤ s.s_last_time.hours) (hh1 : s.s_last_time.hours ≤ 12)
    (hm0 : 0 ≤ s.s_last_time.minutes) (hm1 : s.s_last_time.minutes ≤ 59) :
    mode_time (prv_hands_update sdk anim sdk.ANIMATION_NORMALIZED_MAX s) =
        ⟨prv_hours_to_minutes s.s_last_time.hours, s.s_last_time.minutes⟩ ∧
    mode_time (prv_animation_stopped anim stopped
        (prv_hands_update sdk anim sdk.ANIMATION_NORMALIZED_MAX s)) = s.s_last_time ∧
    minute_angle sdk (mode_time (prv_hands_update sdk anim sdk.ANIMATION_NORMALIZED_MAX s)) =
      minute_angle sdk (mode_time (prv_animation_stopped anim stopped
        (prv_hands_update sdk anim sdk.ANIMATION_NORMALIZED_MAX s))) ∧
    hour_angle sdk true (mode_time (prv_hands_update sdk anim sdk.ANIMATION_NORMALIZED_MAX s)) =
      hour_angle sdk false (mode_time (prv_animation_stopped anim stopped
        (prv_hands_update sdk anim sdk.ANIMATION_NORMALIZED_MAX s))) ∧
    (prv_update_proc sdk full_bounds bounds
        (prv_hands_update sdk anim sdk.ANIMATION_NORMALIZED_MAX s)).2 =
      (prv_update_proc sdk full_bounds bounds
        (prv_animation_stopped anim stopped
          (prv_hands_update sdk anim sdk.ANIMATION_NORMALIZED_MAX s))).2 := by
  have hfull := hands_update_full sdk anim s hN hNb hh0 hh1 hm0 hm1
  have hA : mode_time (prv_hands_update sdk anim sdk.ANIMATION_NORMALIZED_MAX s) =
      ⟨5 * s.s_last_time.hours, s.s_last_time.minutes⟩ := by
    rw [← hfull]
    simp [mode_time, prv_hands_update, layer_mark_dirty, ha]
  have hB : mode_time (prv_animation_stopped anim stopped
      (prv_hands_update sdk anim sdk.ANIMATION_NORMALIZED_MAX s)) = s.s_last_time := by
    simp [mode_time, prv_animation_stopped, prv_hands_update, layer_mark_dirty]
  have hmin : minute_angle sdk ⟨5 * s.s_last_time.hours, s.s_last_time.minutes⟩ =
      minute_angle sdk s.s_last_time := rfl
  have hhour : hour_angle sdk true ⟨5 * s.s_last_time.hours, s.s_last_time.minutes⟩ =
      hour_angle sdk false s.s_last_time :=
    hour_angle_congr sdk true false _ _
      (hour_angle_base_scaled sdk _ _ s.s_last_time.minutes hT0 hT1 hh0 hh1) rfl
  refine ⟨?_, hB, ?_, ?_, ?_⟩
  · rw [hA, hours_to_minutes_eq hh0 hh1]
  · rw [hA, hB]; exact hmin
  · rw [hA, hB]; exact hhour
  · have hmi : minute_angle_int sdk ⟨5 * s.s_last_time.hours, s.s_last_time.minutes⟩ =
        minute_angle_int sdk s.s_last_time := rfl
    simp only [prv_update_proc, draw_face, draw_hour_hand, draw_minute_hand, hour_hand,
      minute_hand, hour_hand_length, minute_hand_length]
    have hA' : ∀ c : GPoint, mode_time
        { prv_hands_update sdk anim sdk.ANIMATION_NORMALIZED_MAX s with s_center := c } =
        ⟨5 * s.s_last_time.hours, s.s_last_time.minutes⟩ := by
      intro c
      rw [← hfull]
      simp [mode_time, prv_hands_update, layer_mark_dirty, ha]
    have hB' : ∀ c : GPoint, mode_time
        { prv_animation_stopped anim stopped
            (prv_hands_update sdk anim sdk.ANIMATION_NORMALIZED_MAX s) with s_center := c } =
        s.s_last_time := by
      intro c
      simp [mode_time, prv_animation_stopped, prv_hands_update, layer_mark_dirty]
    rw [hA', hB', hmi]
    simp only [prv_animation_stopped, prv_hands_update, layer_mark_dirty, ha, hhour]

/-- C10, instance: the reading 03:15 while animating, with the firmware's
constants. -/
theorem C10_no_jump_at_animation_end_witness :
    minute_angle sampleSdk (mode_time (prv_hands_update sampleSdk 0
        sampleSdk.ANIMATION_NORMALIZED_MAX
        { initialState with s_last_time := ⟨3, 15⟩, s_animating := true })) =
      minute_angle sampleSdk (mode_time (prv_animation_stopped 0 true
        (prv_hands_update sampleSdk 0 sampleSdk.ANIMATION_NORMALIZED_MAX
          { initialState with s_last_time := ⟨3, 15⟩, s_animating := true }))) ∧
    hour_angle sampleSdk true (mode_time (prv_hands_update sampleSdk 0
        sampleSdk.ANIMATION_NORMALIZED_MAX
        { initialState with s_last_time := ⟨3, 15⟩, s_animating := true })) =
      hour_angle sampleSdk false (mode_time (prv_animation_stopped 0 true
        (prv_hands_update sampleSdk 0 sampleSdk.ANIMATION_NORMALIZED_MAX
          { initialState with s_last_time := ⟨3, 15⟩, s_animating := true }))) :=
  have h := C10_no_jump_at_animation_end sampleSdk 0 true ⟨⟨0, 0⟩, ⟨180, 180⟩⟩
    ⟨⟨0, 0⟩, ⟨180, 180⟩⟩ { initialState with s_last_time := ⟨3, 15⟩, s_animating := true }
    (by decide) (by decide) (by decide) (by decide) rfl (by decide) (by decide) (by decide)
    (by decide)
  ⟨h.2.2.1, h.2.2.2.1⟩

end KsClockFace
